import Mathlib

/-!
Verification development for the Twilio-Tools CPS analysis programs.

The definitions below are a shallow embedding of the Python sources
`analyzecps.py` and `countcps.py`:

* datetimes and timedeltas are modelled as integers counting microseconds
  (Python `datetime`/`timedelta` have microsecond resolution); the datetime
  origin is `0001-01-01 00:00:00`, so `datetime.min` is `0` and
  `datetime.max` is `315537897599999999` microseconds;
* Python `int` is `Int` and `Decimal` is `Rat` (both exact); the numpy
  value types of `analyzecps.py` are modelled bit-faithfully: the
  `np.int32` arrays and accumulator wrap in two's complement (`wrap32`),
  and a value stored into the `np.single` array is the IEEE-754 float32
  rounding of the IEEE-754 float64 division result (`storeFloat32`), with
  `Rat` as the exact carrier of the resulting dyadic values;
* `sys.exit(msg)` and uncaught exceptions are modelled as `Except.error`;
* file handles, logging and plotting are I/O plumbing and are not modelled.
-/

/-- Number of microseconds in one second (`ONE_SECOND = timedelta(seconds=1)`). -/
def usPerSecond : Int := 1000000

/-- Number of microseconds in one day. -/
def usPerDay : Int := 86400000000

/-- Python `datetime.min = 0001-01-01 00:00:00` as microseconds since the origin. -/
def datetimeMin : Int := 0

/-- Python `datetime.max = 9999-12-31 23:59:59.999999` as microseconds since the
origin: 3652058 days plus 86399.999999 seconds. -/
def datetimeMax : Int := 315537897599999999

/-- Embedding of `num_seconds` from `analyzecps.py`:
`def num_seconds(delta): return delta.days * 86400 + delta.seconds`.
A Python `timedelta` of `t` microseconds is normalised to
`days = t // 86400000000` (floor division) and
`seconds = (t % 86400000000) // 1000000`, with `0 <= t % 86400000000`. -/
def num_seconds (t : Int) : Int :=
  Int.fdiv t usPerDay * 86400 + Int.fdiv (Int.fmod t usPerDay) usPerSecond

/-- The `num_seconds` helper is exactly floor division of microseconds by
`10^6`: fractional seconds are silently truncated (floored). -/
theorem num_seconds_eq_fdiv (t : Int) : num_seconds t = Int.fdiv t usPerSecond := by
  unfold num_seconds usPerDay usPerSecond
  rw [Int.fmod_eq_emod _ (by norm_num), Int.fdiv_eq_ediv _ (by norm_num),
    Int.fdiv_eq_ediv _ (by norm_num), Int.fdiv_eq_ediv _ (by norm_num)]
  omega

/-! Machine arithmetic of `analyzecps.py`.

`main` allocates `cps_array = np.zeros(..., dtype=np.int32)` and
`queue_time = np.zeros(..., dtype=np.single)` (lines 196-197), so counts
and the queue accumulator live in two's-complement int32, and every stored
delay is a float32.  `wrap32` models int32 wraparound.  `storeFloat32 q c`
models `queue_time[i] = q / c` for integer `q`, `c`: numpy converts both
operands exactly to float64 (int32 magnitudes are below `2^53`), divides
with one correct round-to-nearest-even at 53 significant bits, and the
float32 store rounds again to 24 significant bits.  The rounding model
covers normal, finite values — the quotients that arise here have magnitude
between `2^-31` and `2^31`, far from the subnormal and overflow thresholds —
and division by zero cannot occur under any theorem hypothesis below (the
model returns `0` there; numpy would emit `inf`/`nan` with a warning). -/

/-- Two's-complement wraparound into int32 (numpy `np.int32` arithmetic). -/
def wrap32 (x : Int) : Int := (x + 2147483648) % 4294967296 - 2147483648

/-- Command-line window bounds of `analyzecps.py` (`args.start`, `args.end`),
already parsed by `datetime.fromisoformat` into microsecond timestamps. -/
structure AnalyzeArgs where
  start : Option Int
  stop : Option Int

/-- State of the read loop in `main`: `num_read`, `intervals`, `earliest`,
`latest`. -/
structure ReadState where
  numRead : Nat
  intervals : List (Int × Int)
  earliest : Int
  latest : Int

/-- Initial read-loop state: `earliest = datetime.max`, `latest = datetime.min`. -/
def initReadState : ReadState :=
  { numRead := 0, intervals := [], earliest := datetimeMax, latest := datetimeMin }

/-- Body of the read loop in `main` for one CSV line: count it, skip it when
it falls outside the chosen period (`dt < args.start` or `dt >= args.end`),
otherwise update `earliest` / `latest` and append it to `intervals`. -/
def readLine (args : AnalyzeArgs) (st : ReadState) (rec : Int × Int) : ReadState :=
  let st1 := { st with numRead := st.numRead + 1 }
  if args.start.any (fun s => decide (rec.1 < s)) then st1
  else if args.stop.any (fun e => decide (rec.1 ≥ e)) then st1
  else
    { st1 with
      earliest := if rec.1 < st1.earliest then rec.1 else st1.earliest
      latest := if rec.1 > st1.latest then rec.1 else st1.latest
      intervals := st1.intervals ++ [rec] }

/-- The read loop of `main` over the whole CSV file. -/
def readAll (args : AnalyzeArgs) (records : List (Int × Int)) : ReadState :=
  records.foldl (readLine args) initReadState

/-- Predicate version of the period filter: a record with timestamp `dt` is
kept iff `args.start <= dt` (when set) and `dt < args.end` (when set). -/
def in_window (args : AnalyzeArgs) (dt : Int) : Bool :=
  !(args.start.any (fun s => decide (dt < s))) && !(args.stop.any (fun e => decide (dt ≥ e)))

/-- Window bounds as derived by `main` after the read loop: explicit bounds
take precedence, otherwise `start = earliest`, `end = latest + ONE_SECOND`;
`none` when no record survived the filter. -/
def windowBounds (args : AnalyzeArgs) (records : List (Int × Int)) :
    Option (Int × Int) :=
  let st := readAll args records
  if st.intervals = [] then none
  else some (args.start.getD st.earliest, args.stop.getD (st.latest + usPerSecond))

/-- Loading loop of `main`: for each kept interval, write its count at offset
`num_seconds(dt - start)` into the dense `np.int32` array, so the stored
value is the count reduced to int32 (numpy before 2.0 wraps silently; the
per-second counts that `countcps.py` produces are far inside int32 range,
where both numpy generations store the count unchanged).  numpy raises
`IndexError` for an index `>= n` or `< -n`, and wraps a negative index
`-n <= i < 0` around to `n + i`; out-of-range indexes are modelled as
`Except.error`. -/
def loadStep (start : Int) (n : Nat) (arr : List Int) (rec : Int × Int) :
    Except String (List Int) :=
  if 0 ≤ num_seconds (rec.1 - start) ∧ num_seconds (rec.1 - start) < (n : Int) then
    .ok (arr.set (num_seconds (rec.1 - start)).toNat (wrap32 rec.2))
  else if -(n : Int) ≤ num_seconds (rec.1 - start) ∧ num_seconds (rec.1 - start) < 0 then
    .ok (arr.set (num_seconds (rec.1 - start) + n).toNat (wrap32 rec.2))
  else .error "IndexError: index out of bounds"

def loadCps (intervals : List (Int × Int)) (start : Int) (n : Nat) :
    Except String (List Int) :=
  intervals.foldlM (loadStep start n) (List.replicate n 0)

/-- Post-read part of `main`: the empty-input check, the window-bound
derivation, the allocation of the dense per-second array (`np.zeros`, which
raises `ValueError` for a negative size) and the loading loop. -/
def materializePhase (args : AnalyzeArgs) (st : ReadState) :
    Except String (List Int) :=
  if st.intervals = [] then .error "No records found in the specified time period"
  else if num_seconds (args.stop.getD (st.latest + usPerSecond) -
      args.start.getD st.earliest) < 0 then
    .error "ValueError: negative dimensions are not allowed"
  else
    loadCps st.intervals (args.start.getD st.earliest)
      (num_seconds (args.stop.getD (st.latest + usPerSecond) -
        args.start.getD st.earliest)).toNat

/-- Embedding of the data path of `main` in `analyzecps.py`: read and filter
the records, derive the window bounds, allocate the dense per-second array
and load the kept counts into it.  The returned array is the `cps_array`
handed to `calculate_queue_time`. -/
def mainPipeline (args : AnalyzeArgs) (records : List (Int × Int)) :
    Except String (List Int) :=
  materializePhase args (readAll args records)

theorem in_window_iff (args : AnalyzeArgs) (dt : Int) :
    in_window args dt = true ↔
      (∀ s ∈ args.start, s ≤ dt) ∧ (∀ e ∈ args.stop, dt < e) := by
  obtain ⟨os, oe⟩ := args
  cases os <;> cases oe <;> simp [in_window]

theorem readLine_keep (args : AnalyzeArgs) (st : ReadState) (rec : Int × Int)
    (h : in_window args rec.1 = true) :
    readLine args st rec =
      { numRead := st.numRead + 1
        intervals := st.intervals ++ [rec]
        earliest := if rec.1 < st.earliest then rec.1 else st.earliest
        latest := if rec.1 > st.latest then rec.1 else st.latest } := by
  unfold in_window at h
  rw [Bool.and_eq_true, Bool.not_eq_eq_eq_not, Bool.not_eq_eq_eq_not] at h
  simp only [Bool.not_true] at h
  simp [readLine, h.1, h.2]

theorem readLine_skip (args : AnalyzeArgs) (st : ReadState) (rec : Int × Int)
    (h : in_window args rec.1 = false) :
    readLine args st rec = { st with numRead := st.numRead + 1 } := by
  unfold in_window at h
  rw [Bool.and_eq_false_iff] at h
  by_cases h1 : args.start.any (fun s => decide (rec.1 < s)) = true
  · simp [readLine, h1]
  · have h2 : args.stop.any (fun e => decide (rec.1 ≥ e)) = true := by
      rcases h with h | h
      · simp_all
      · simpa using h
    simp [readLine, h1, h2]

theorem foldl_readLine_intervals (args : AnalyzeArgs) (records : List (Int × Int)) :
    ∀ st : ReadState, (records.foldl (readLine args) st).intervals =
      st.intervals ++ records.filter (fun r => in_window args r.1) := by
  induction records with
  | nil => intro st; simp
  | cons r rest ih =>
    intro st
    rw [List.foldl_cons, ih]
    by_cases h : in_window args r.1 = true
    · rw [readLine_keep args st r h]
      simp [List.filter_cons, h]
    · rw [readLine_skip args st r (by simpa using h)]
      simp [List.filter_cons, h]

theorem foldl_readLine_earliest (args : AnalyzeArgs) (records : List (Int × Int)) :
    ∀ st : ReadState, (records.foldl (readLine args) st).earliest =
      ((records.filter (fun r => in_window args r.1)).map Prod.fst).foldl min st.earliest := by
  induction records with
  | nil => intro st; simp
  | cons r rest ih =>
    intro st
    rw [List.foldl_cons, ih]
    by_cases h : in_window args r.1 = true
    · rw [readLine_keep args st r h]
      simp only [List.filter_cons, h, if_true, List.map_cons, List.foldl_cons]
      congr 1
      rw [min_def]
      omega
    · rw [readLine_skip args st r (by simpa using h)]
      simp [List.filter_cons, h]

theorem foldl_readLine_latest (args : AnalyzeArgs) (records : List (Int × Int)) :
    ∀ st : ReadState, (records.foldl (readLine args) st).latest =
      ((records.filter (fun r => in_window args r.1)).map Prod.fst).foldl max st.latest := by
  induction records with
  | nil => intro st; simp
  | cons r rest ih =>
    intro st
    rw [List.foldl_cons, ih]
    by_cases h : in_window args r.1 = true
    · rw [readLine_keep args st r h]
      simp only [List.filter_cons, h, if_true, List.map_cons, List.foldl_cons]
      congr 1
      rw [max_def]
      omega
    · rw [readLine_skip args st r (by simpa using h)]
      simp [List.filter_cons, h]

theorem foldl_min_le_init (l : List Int) : ∀ init : Int, l.foldl min init ≤ init := by
  induction l with
  | nil => intro init; simp
  | cons a rest ih =>
    intro init
    exact le_trans (ih (min init a)) (min_le_left _ _)

theorem foldl_min_le_mem (l : List Int) :
    ∀ init : Int, ∀ x ∈ l, l.foldl min init ≤ x := by
  induction l with
  | nil => intro _ x hx; simp at hx
  | cons a rest ih =>
    intro init x hx
    rcases List.mem_cons.mp hx with rfl | hx
    · exact le_trans (foldl_min_le_init rest _) (min_le_right _ _)
    · exact ih _ x hx

theorem foldl_min_mem (l : List Int) :
    ∀ init : Int, l.foldl min init = init ∨ l.foldl min init ∈ l := by
  induction l with
  | nil => intro init; simp
  | cons a rest ih =>
    intro init
    rcases ih (min init a) with h | h
    · rw [List.foldl_cons, h, min_def]
      split
    

      · left; rfl
      · right; simp
    · right; exact List.mem_cons_of_mem _ h

theorem foldl_max_init_le (l : List Int) : ∀ init : Int, init ≤ l.foldl max init := by
  induction l with
  | nil => intro init; simp
  | cons a rest ih =>
    intro init
    exact le_trans (le_max_left _ _) (ih (max init a))

theorem foldl_max_mem_le (l : List Int) :
    ∀ init : Int, ∀ x ∈ l, x ≤ l.foldl max init := by
  induction l with
  | nil => intro _ x hx; simp at hx
  | cons a rest ih =>
    intro init x hx
    rcases List.mem_cons.mp hx with rfl | hx
    · exact le_trans (le_max_right _ _) (foldl_max_init_le rest _)
    · exact ih _ x hx

theorem foldl_max_mem (l : List Int) :
    ∀ init : Int, l.foldl max init = init ∨ l.foldl max init ∈ l := by
  induction l with
  | nil => intro init; simp
  | cons a rest ih =>
    intro init
    rcases ih (max init a) with h | h
    · rw [List.foldl_cons, h, max_def]
      split
      · right; simp
      · left; rfl
    · right; exact List.mem_cons_of_mem _ h

theorem foldl_min_mem_of_le (l : List Int) (init : Int) (hne : l ≠ [])
    (hb : ∀ x ∈ l, x ≤ init) : l.foldl min init ∈ l := by
  rcases foldl_min_mem l init with h | h
  · obtain ⟨y, hy⟩ := List.exists_mem_of_ne_nil l hne
    have h1 := foldl_min_le_mem l init y hy
    have h2 : l.foldl min init = y := le_antisymm h1 (by rw [h]; exact hb y hy)
    rw [h2]; exact hy
  · exact h

theorem foldl_max_mem_of_le (l : List Int) (init : Int) (hne : l ≠ [])
    (hb : ∀ x ∈ l, init ≤ x) : l.foldl max init ∈ l := by
  rcases foldl_max_mem l init with h | h
  · obtain ⟨y, hy⟩ := List.exists_mem_of_ne_nil l hne
    have h1 := foldl_max_mem_le l init y hy
    have h2 : l.foldl max init = y := le_antisymm (by rw [h]; exact hb y hy) h1
    rw [h2]; exact hy
  · exact h

theorem loadStep_length (start : Int) (n : Nat) (acc arr : List Int)
    (rec : Int × Int) (h : loadStep start n acc rec = .ok arr) :
    arr.length = acc.length := by
  unfold loadStep at h
  split at h
  · cases h; simp
  · split at h
    · cases h; simp
    · cases h

theorem loadCps_go_length (start : Int) (n : Nat) (intervals : List (Int × Int)) :
    ∀ acc arr : List Int,
      intervals.foldlM (loadStep start n) acc = .ok arr → arr.length = acc.length := by
  induction intervals with
  | nil =>
    intro acc arr h
    simp only [List.foldlM_nil, pure] at h
    cases h; rfl
  | cons r rest ih =>
    intro acc arr h
    rw [List.foldlM_cons] at h
    cases hs : loadStep start n acc r with
    | error e => rw [hs] at h; simp [Bind.bind, Except.bind] at h
    | ok acc' =>
      rw [hs] at h
      simp only [Bind.bind, Except.bind] at h
      rw [ih acc' arr h, loadStep_length start n acc acc' r hs]

theorem loadCps_ok_length (intervals : List (Int × Int)) (start : Int) (n : Nat)
    (arr : List Int) (h : loadCps intervals start n = .ok arr) : arr.length = n := by
  have := loadCps_go_length start n intervals (List.replicate n 0) arr h
  simpa using this

theorem materializePhase_congr (args : AnalyzeArgs) (st st' : ReadState)
    (h1 : st.intervals = st'.intervals) (h2 : st.earliest = st'.earliest)
    (h3 : st.latest = st'.latest) :
    materializePhase args st = materializePhase args st' := by
  unfold materializePhase
  rw [h1, h2, h3]

theorem filter_in_window_idem (args : AnalyzeArgs) (records : List (Int × Int)) :
    (records.filter (fun r => in_window args r.1)).filter (fun r => in_window args r.1) =
      records.filter (fun r => in_window args r.1) :=
  List.filter_eq_self.mpr (fun _ ha => (List.mem_filter.mp ha).2)

/-- Claim C6: explicitly supplied window bounds take precedence over
derivation; when a bound is absent, `window_start` is the earliest accepted
(in-window) event and `window_end` is the latest accepted event plus one
second; and events excluded by explicit bounds influence neither the dense
series nor the min/max tracking used for auto-derivation (running the
pipeline on the pre-filtered record list gives the same result). -/
theorem window_bounds_precedence_and_derivation (args : AnalyzeArgs)
    (records : List (Int × Int))
    (hval : ∀ r ∈ records, datetimeMin ≤ r.1 ∧ r.1 ≤ datetimeMax) :
    mainPipeline args records =
      mainPipeline args (records.filter (fun r => in_window args r.1)) ∧
    (records.filter (fun r => in_window args r.1) ≠ [] →
      ∃ b : Int × Int, windowBounds args records = some b ∧
        (∀ s0, args.start = some s0 → b.1 = s0) ∧
        (∀ e0, args.stop = some e0 → b.2 = e0) ∧
        (args.start = none →
          b.1 ∈ (records.filter (fun r => in_window args r.1)).map Prod.fst ∧
          ∀ r ∈ records.filter (fun r => in_window args r.1), b.1 ≤ r.1) ∧
        (args.stop = none →
          ∃ m, m ∈ (records.filter (fun r => in_window args r.1)).map Prod.fst ∧
            (∀ r ∈ records.filter (fun r => in_window args r.1), r.1 ≤ m) ∧
            b.2 = m + usPerSecond)) := by
  set kept := records.filter (fun r => in_window args r.1) with hkept
  have hint : (readAll args records).intervals = kept := by
    rw [readAll, foldl_readLine_intervals]; rfl
  have hearly : (readAll args records).earliest =
      (kept.map Prod.fst).foldl min datetimeMax := by
    rw [readAll, foldl_readLine_earliest]; rfl
  have hlate : (readAll args records).latest =
      (kept.map Prod.fst).foldl max datetimeMin := by
    rw [readAll, foldl_readLine_latest]; rfl
  have hint' : (readAll args kept).intervals = kept := by
    rw [readAll, foldl_readLine_intervals, hkept, filter_in_window_idem]; rfl
  have hearly' : (readAll args kept).earliest =
      (kept.map Prod.fst).foldl min datetimeMax := by
    rw [readAll, foldl_readLine_earliest, hkept, filter_in_window_idem]; rfl
  have hlate' : (readAll args kept).latest =
      (kept.map Prod.fst).foldl max datetimeMin := by
    rw [readAll, foldl_readLine_latest, hkept, filter_in_window_idem]; rfl
  constructor
  · unfold mainPipeline
    exact materializePhase_congr args _ _ (by rw [hint, hint'])
      (by rw [hearly, hearly']) (by rw [hlate, hlate'])
  · intro hne
    have hmapne : kept.map Prod.fst ≠ [] := by
      simpa using hne
    have hbounds : ∀ x ∈ kept.map Prod.fst, datetimeMin ≤ x ∧ x ≤ datetimeMax := by
      intro x hx
      obtain ⟨r, hr, rfl⟩ := List.mem_map.mp hx
      exact hval r (List.mem_of_mem_filter hr)
    refine ⟨(args.start.getD (readAll args records).earliest,
             args.stop.getD ((readAll args records).latest + usPerSecond)), ?_, ?_, ?_, ?_, ?_⟩
    · rw [windowBounds]
      simp [hint, hne]
    · intro s0 hs0; simp [hs0]
    · intro e0 he0; simp [he0]
    · intro hs0
      simp only [hs0, Option.getD_none, hearly]
      constructor
      · exact foldl_min_mem_of_le _ _ hmapne (fun x hx => (hbounds x hx).2)
      · intro r hr
        exact foldl_min_le_mem _ _ r.1 (List.mem_map.mpr ⟨r, hr, rfl⟩)
    · intro he0
      refine ⟨(kept.map Prod.fst).foldl max datetimeMin, ?_, ?_, ?_⟩
      · exact foldl_max_mem_of_le _ _ hmapne (fun x hx => (hbounds x hx).1)
      · intro r hr
        exact foldl_max_mem_le _ _ r.1 (List.mem_map.mpr ⟨r, hr, rfl⟩)
      · simp [he0, hlate]

/-- Witness for C6 at `args = (none, none)` and a single record. -/
theorem window_bounds_precedence_and_derivation_witness :
    mainPipeline ⟨none, none⟩ [(1000000, 2)] =
      mainPipeline ⟨none, none⟩
        ([(1000000, 2)].filter (fun r => in_window ⟨none, none⟩ r.1)) ∧
    (([(1000000, 2)] : List (Int × Int)).filter
        (fun r => in_window ⟨none, none⟩ r.1) ≠ [] →
      ∃ b : Int × Int, windowBounds ⟨none, none⟩ [(1000000, 2)] = some b ∧
        (∀ s0, (⟨none, none⟩ : AnalyzeArgs).start = some s0 → b.1 = s0) ∧
        (∀ e0, (⟨none, none⟩ : AnalyzeArgs).stop = some e0 → b.2 = e0) ∧
        ((⟨none, none⟩ : AnalyzeArgs).start = none →
          b.1 ∈ (([(1000000, 2)] : List (Int × Int)).filter
            (fun r => in_window ⟨none, none⟩ r.1)).map Prod.fst ∧
          ∀ r ∈ ([(1000000, 2)] : List (Int × Int)).filter
            (fun r => in_window ⟨none, none⟩ r.1), b.1 ≤ r.1) ∧
        ((⟨none, none⟩ : AnalyzeArgs).stop = none →
          ∃ m, m ∈ (([(1000000, 2)] : List (Int × Int)).filter
              (fun r => in_window ⟨none, none⟩ r.1)).map Prod.fst ∧
            (∀ r ∈ ([(1000000, 2)] : List (Int × Int)).filter
              (fun r => in_window ⟨none, none⟩ r.1), r.1 ≤ m) ∧
            b.2 = m + usPerSecond)) :=
  window_bounds_precedence_and_derivation ⟨none, none⟩ [(1000000, 2)] (by decide)

/-- Claim C3 fails on the code: two canonical-events lines with the same
timestamp do not trigger any fatal error.  With the duplicated line
`2024-01-01 00:00:05,3` (timestamp `5000000` microseconds into the origin
day of the model), the pipeline succeeds and produces the dense series
`[3]`. -/
theorem duplicate_timestamp_counterexample :
    mainPipeline ⟨none, none⟩ [(5000000, 3), (5000000, 3)] = .ok [3] := rfl

theorem wrap32_eq_self (x : Int) (hlo : -2147483648 ≤ x) (hhi : x < 2147483648) :
    wrap32 x = x := by
  unfold wrap32
  omega

/-- Claim C3 (amended): the Materializer does not detect duplicate timestamp
keys; every record is written (reduced to int32) at its offset in input
order, so for two records sharing a timestamp the later record's count
silently wins: whenever the later count is within int32 range the dense
series holds exactly that count, whatever the earlier record held. -/
theorem duplicate_timestamp_last_write_wins (t c1 c2 : Int)
    (h0 : datetimeMin ≤ t) (h1 : t ≤ datetimeMax)
    (hlo : -2147483648 ≤ c2) (hhi : c2 < 2147483648) :
    mainPipeline ⟨none, none⟩ [(t, c1), (t, c2)] = .ok [c2] := by
  have hfil : ([(t, c1), (t, c2)] : List (Int × Int)).filter
      (fun r => in_window ⟨none, none⟩ r.1) = [(t, c1), (t, c2)] := by
    simp [List.filter_cons, in_window]
  have hint : (readAll ⟨none, none⟩ [(t, c1), (t, c2)]).intervals = [(t, c1), (t, c2)] := by
    rw [readAll, foldl_readLine_intervals, hfil]; rfl
  have hearly : (readAll ⟨none, none⟩ [(t, c1), (t, c2)]).earliest = t := by
    rw [readAll, foldl_readLine_earliest, hfil]
    simp only [List.map_cons, List.map_nil, List.foldl_cons, List.foldl_nil]
    have h1' : t ≤ 315537897599999999 := h1
    show min (min (315537897599999999 : Int) t) t = t
    omega
  have hlate : (readAll ⟨none, none⟩ [(t, c1), (t, c2)]).latest = t := by
    rw [readAll, foldl_readLine_latest, hfil]
    simp only [List.map_cons, List.map_nil, List.foldl_cons, List.foldl_nil]
    have h0' : (0 : Int) ≤ t := h0
    show max (max (0 : Int) t) t = t
    omega
  unfold mainPipeline materializePhase
  rw [hint, hearly, hlate]
  dsimp only
  rw [if_neg (by simp)]
  simp only [Option.getD_none]
  rw [show t + usPerSecond - t = usPerSecond from by ring]
  rw [show num_seconds usPerSecond = 1 from by decide]
  rw [if_neg (by norm_num)]
  rw [show ((1 : Int)).toNat = 1 from rfl]
  rw [loadCps]
  rw [List.foldlM_cons]
  rw [show loadStep t 1 (List.replicate 1 0) (t, c1) = .ok [wrap32 c1] from by
    unfold loadStep
    dsimp only
    rw [sub_self, show num_seconds 0 = 0 from by decide]
    norm_num [List.replicate]]
  simp only [Bind.bind, Except.bind]
  rw [List.foldlM_cons]
  rw [show loadStep t 1 [wrap32 c1] (t, c2) = .ok [wrap32 c2] from by
    unfold loadStep
    dsimp only
    rw [sub_self, show num_seconds 0 = 0 from by decide]
    norm_num]
  simp only [Bind.bind, Except.bind]
  rw [List.foldlM_nil, wrap32_eq_self c2 hlo hhi]
  rfl


/-- Witness for the amended C3 at `t = 5000000`, counts `3` then `7`. -/
theorem duplicate_timestamp_last_write_wins_witness :
    mainPipeline ⟨none, none⟩ [(5000000, 3), (5000000, 7)] = .ok [7] :=
  duplicate_timestamp_last_write_wins 5000000 3 7 (by decide) (by decide)
    (by decide) (by decide)

theorem mainPipeline_ok_elim (args : AnalyzeArgs) (records : List (Int × Int))
    (arr : List Int) (h : mainPipeline args records = .ok arr) :
    (readAll args records).intervals ≠ [] ∧
    0 ≤ num_seconds (args.stop.getD ((readAll args records).latest + usPerSecond) -
      args.start.getD (readAll args records).earliest) ∧
    loadCps (readAll args records).intervals
      (args.start.getD (readAll args records).earliest)
      (num_seconds (args.stop.getD ((readAll args records).latest + usPerSecond) -
        args.start.getD (readAll args records).earliest)).toNat = .ok arr := by
  unfold mainPipeline materializePhase at h
  by_cases hk : (readAll args records).intervals = []
  · rw [if_pos hk] at h; cases h
  · rw [if_neg hk] at h
    by_cases hneg : num_seconds (args.stop.getD ((readAll args records).latest + usPerSecond) -
        args.start.getD (readAll args records).earliest) < 0
    · rw [if_pos hneg] at h; cases h
    · rw [if_neg hneg] at h
      exact ⟨hk, le_of_not_lt hneg, h⟩


/-- Claim C4 fails on the code: a window whose length is not a whole number
of seconds is not rejected.  With explicit `--start` at a half second
(`500000` microseconds) and one record at one second, the derived window is
`[500000, 2000000)` — `1.5` seconds, not a whole number — yet the pipeline
silently truncates and succeeds with a one-slot series. -/
theorem dense_series_fractional_window_counterexample :
    windowBounds ⟨some 500000, none⟩ [(1000000, 2)] = some (500000, 2000000) ∧
    (2000000 - 500000 : Int) % usPerSecond ≠ 0 ∧
    mainPipeline ⟨some 500000, none⟩ [(1000000, 2)] = .ok [2] :=
  ⟨rfl, by decide, rfl⟩

/-- Claim C4 (amended): the materialized DenseSeries has length equal to the
floor of `(window_end - window_start)` in seconds (`num_seconds` floors, so a
fractional difference is silently truncated rather than rejected); an empty
accepted-event set is a fatal error; and whenever materialization succeeds
the window satisfies `window_start < window_end` (an inverted or empty window
can only surface as the empty-set error). -/
theorem dense_series_length_and_window_checks (args : AnalyzeArgs)
    (records : List (Int × Int)) :
    (records.filter (fun r => in_window args r.1) = [] →
      mainPipeline args records = .error "No records found in the specified time period") ∧
    (∀ t, num_seconds t = Int.fdiv t usPerSecond) ∧
    (∀ arr, mainPipeline args records = .ok arr →
      ∃ b : Int × Int, windowBounds args records = some b ∧ b.1 < b.2 ∧
        (arr.length : Int) = num_seconds (b.2 - b.1)) := by
  have hint : (readAll args records).intervals =
      records.filter (fun r => in_window args r.1) := by
    rw [readAll, foldl_readLine_intervals]; rfl
  have hearly : (readAll args records).earliest =
      ((records.filter (fun r => in_window args r.1)).map Prod.fst).foldl min datetimeMax := by
    rw [readAll, foldl_readLine_earliest]; rfl
  have hlate : (readAll args records).latest =
      ((records.filter (fun r => in_window args r.1)).map Prod.fst).foldl max datetimeMin := by
    rw [readAll, foldl_readLine_latest]; rfl
  refine ⟨?_, num_seconds_eq_fdiv, ?_⟩
  · intro hk
    unfold mainPipeline materializePhase
    rw [hint, hk, if_pos rfl]
  · intro arr harr
    obtain ⟨hk, hnn, hload⟩ := mainPipeline_ok_elim args records arr harr
    have hlen := loadCps_ok_length _ _ _ _ hload
    have hkept : records.filter (fun r => in_window args r.1) ≠ [] := by
      rw [hint] at hk; exact hk
    obtain ⟨r, hr⟩ := List.exists_mem_of_ne_nil _ hkept
    have hrmem : r.1 ∈ (records.filter (fun r => in_window args r.1)).map Prod.fst :=
      List.mem_map.mpr ⟨r, hr, rfl⟩
    have hiw := (in_window_iff args r.1).mp (List.mem_filter.mp hr).2
    have hsle : args.start.getD (readAll args records).earliest ≤ r.1 := by
      cases hso : args.start with
      | some s0 => simpa using hiw.1 s0 hso
      | none =>
        simp only [Option.getD_none, hearly]
        exact foldl_min_le_mem _ _ _ hrmem
    have hml : r.1 ≤ (readAll args records).latest := by
      rw [hlate]
      exact foldl_max_mem_le _ datetimeMin r.1 hrmem
    have hre : r.1 < args.stop.getD ((readAll args records).latest + usPerSecond) := by
      cases heo : args.stop with
      | some e0 => simpa using hiw.2 e0 heo
      | none =>
        simp only [Option.getD_none]
        have hpos : (0 : Int) < usPerSecond := by norm_num [usPerSecond]
        omega
    refine ⟨(args.start.getD (readAll args records).earliest,
             args.stop.getD ((readAll args records).latest + usPerSecond)),
      ?_, lt_of_le_of_lt hsle hre, ?_⟩
    · simp [windowBounds, hk]
    · dsimp only
      rw [hlen, Int.toNat_of_nonneg hnn]

/-- Witness for the amended C4 at `args = (none, none)`,
`records = [(1000000, 2)]`, for which the pipeline returns `.ok [2]`. -/
theorem dense_series_length_and_window_checks_witness :
    ∃ b : Int × Int, windowBounds ⟨none, none⟩ [(1000000, 2)] = some b ∧ b.1 < b.2 ∧
      (([(2 : Int)]).length : Int) = num_seconds (b.2 - b.1) :=
  (dense_series_length_and_window_checks ⟨none, none⟩ [(1000000, 2)]).2.2 [2] rfl

/-! Capacity dispatch of `main` in `analyzecps.py` (for the capacity
validation claim).

The command line parser declares `--cps` with `type=int` and no range check
(`get_args`, line 75).  In `main`, `if args.cps:` uses Python truthiness, so
`None` and `0` both fall through to the interactive prompt; any other integer
is passed straight to `calculate_queue_time`.  The interactive loop strips
each response, skips empty input, stops at a leading `Q`/`q`, and otherwise
simulates with `int(response)` — a failed parse (`ValueError`) just
re-prompts.  `parseInt` abstracts Python `int()` on the stripped response. -/

/-- Interactive prompt loop of `main`: the successive capacities with which
`calculate_queue_time` is invoked, given the sequence of responses.  Each
list element models `input("Enter CPS value, or Q to quit: ").strip()`,
i.e. the response after Python has already stripped surrounding whitespace. -/
def promptCapacities (parseInt : String → Option Int) : List String → List Int
  | [] => []
  | r :: rest =>
    if r = "" then promptCapacities parseInt rest
    else if r.front.toUpper = 'Q' then []
    else
      match parseInt r with
      | some c => c :: promptCapacities parseInt rest
      | none => promptCapacities parseInt rest

/-- Capacities with which `main` invokes the Queue Delay Simulator, given
the parsed `--cps` argument and the interactive responses: `if args.cps:`
(Python truthiness) selects the one-shot path exactly when `--cps` was
supplied and nonzero. -/
def invokedCapacities (parseInt : String → Option Int) (argsCps : Option Int)
    (responses : List String) : List Int :=
  match argsCps with
  | some c => if c = 0 then promptCapacities parseInt responses else [c]
  | none => promptCapacities parseInt responses

/-- Claim C2 fails on the code: no validation of the capacity exists.  With
`--cps -5`, the value `-5 <= 0` is passed straight to the Queue Delay
Simulator. -/
theorem capacity_not_validated_counterexample :
    (-5 : Int) ≤ 0 ∧
      invokedCapacities (fun _ => none) (some (-5)) [] = [-5] := by
  constructor
  · decide
  · rfl

/-- Claim C2 (amended): the program performs no capacity validation.  A
nonzero `--cps` value — including a negative one — is passed to the Queue
Delay Simulator as-is; `--cps 0` is treated like an absent argument (Python
truthiness) and falls through to the interactive prompt, as does omitting
`--cps`; and every integer successfully parsed at the prompt, including
non-positive ones, is passed to the simulator. -/
theorem capacity_dispatch_unvalidated (parseInt : String → Option Int)
    (c : Int) (responses : List String) (r : String) (hc : c ≠ 0)
    (hr1 : r ≠ "") (hr2 : r.front.toUpper ≠ 'Q') :
    invokedCapacities parseInt (some c) responses = [c] ∧
    invokedCapacities parseInt (some 0) responses =
      promptCapacities parseInt responses ∧
    invokedCapacities parseInt none responses =
      promptCapacities parseInt responses ∧
    (∀ c0, parseInt r = some c0 →
      promptCapacities parseInt (r :: responses) =
        c0 :: promptCapacities parseInt responses) := by
  refine ⟨by simp [invokedCapacities, hc], rfl, rfl, fun c0 hc0 => ?_⟩
  rw [promptCapacities, if_neg hr1, if_neg hr2, hc0]

/-- Witness for the amended C2: `--cps -5` reaches the simulator, and the
prompt response `"-3"` is simulated as capacity `-3`. -/
theorem capacity_dispatch_unvalidated_witness :
    invokedCapacities (fun s => if s = "-3" then some (-3) else none)
        (some (-5)) [] = [-5] ∧
    invokedCapacities (fun s => if s = "-3" then some (-3) else none)
        (some 0) [] =
      promptCapacities (fun s => if s = "-3" then some (-3) else none) [] ∧
    invokedCapacities (fun s => if s = "-3" then some (-3) else none)
        none [] =
      promptCapacities (fun s => if s = "-3" then some (-3) else none) [] ∧
    (∀ c0, (fun s => if s = "-3" then some (-3) else none) ("-3" : String) = some c0 →
      promptCapacities (fun s => if s = "-3" then some (-3) else none) ["-3"] =
        c0 :: promptCapacities (fun s => if s = "-3" then some (-3) else none) []) :=
  capacity_dispatch_unvalidated (fun s => if s = "-3" then some (-3) else none)
    (-5) [] "-3" (by decide) (by decide) (by decide)

/-! Daily Maxima Extractor (`get_daily_maxima` in `analyzecps.py`).

`np.argmax` returns the index of the maximum value, with the first index
winning on ties; `np_argmax` embeds that contract recursively.  The `while`
loop of `get_daily_maxima` advances `start_index` by the length of each
chunk (`end_index = min(start_index + 86400, len)`), so it performs at most
`len(queue_time)` iterations; the recursion below carries that bound as
explicit fuel so that the definition is structurally recursive. -/

/-- Embedding of `np.argmax` on a list of queue times: first index of the
maximum value (`0` on the empty list, as a neutral placeholder). -/
def np_argmax : List ℚ → Nat
  | [] => 0
  | x :: xs => if xs.all (fun y => decide (y ≤ x)) then 0 else np_argmax xs + 1

/-- Loop of `get_daily_maxima`: while `start_index < len(queue_time)`, take
the chunk `queue_time[start_index : start_index + 86400]`, emit
`(start + timedelta(seconds = start_index + argmax(chunk)), chunk[argmax])`,
and advance past the chunk.  `qt` is the remaining suffix of the series. -/
def get_daily_maxima_go (start : Int) : Nat → Nat → List ℚ → List (Int × ℚ)
  | 0, _, _ => []
  | fuel + 1, startIndex, qt =>
    if qt.isEmpty then []
    else
      (start + ((startIndex + np_argmax (qt.take 86400) : Nat) : Int) * usPerSecond,
        (qt.take 86400).getD (np_argmax (qt.take 86400)) 0) ::
      get_daily_maxima_go start fuel (startIndex + min 86400 qt.length) (qt.drop 86400)

/-- Embedding of `get_daily_maxima(start, queue_time)`. -/
def get_daily_maxima (start : Int) (queueTime : List ℚ) : List (Int × ℚ) :=
  get_daily_maxima_go start queueTime.length 0 queueTime

/-- Day window `k` of a delay series: indices `[k*86400, (k+1)*86400)`. -/
def dayWindow (qt : List ℚ) (k : Nat) : List ℚ :=
  (qt.drop (k * 86400)).take 86400

theorem np_argmax_is_max (l : List ℚ) :
    ∀ m, m < l.length → l.getD m 0 ≤ l.getD (np_argmax l) 0 := by
  induction l with
  | nil => intro m hm; simp at hm
  | cons x xs ih =>
    intro m hm
    rw [np_argmax]
    by_cases hall : xs.all (fun y => decide (y ≤ x)) = true
    · rw [if_pos hall, List.all_eq_true] at *
      cases m with
      | zero => simp
      | succ k =>
        simp only [List.getD_cons_succ, List.getD_cons_zero]
        have hk : k < xs.length := by simpa using hm
        have hmem : xs.getD k 0 ∈ xs := by
          rw [List.getD_eq_getElem _ _ hk]; exact List.getElem_mem hk
        simpa using hall _ hmem
    · rw [if_neg hall]
      have hex : ∃ y ∈ xs, x < y := by
        by_contra hno
        push_neg at hno
        exact hall (List.all_eq_true.mpr (fun y hy => by
          simp only [decide_eq_true_eq]
          exact hno y hy))
      have hx : x < xs.getD (np_argmax xs) 0 := by
        obtain ⟨y, hy, hxy⟩ := hex
        obtain ⟨j, hj, rfl⟩ := List.mem_iff_getElem.mp hy
        have := ih j hj
        rw [List.getD_eq_getElem _ _ hj] at this
        exact lt_of_lt_of_le hxy this
      cases m with
      | zero => simpa using le_of_lt hx
      | succ k =>
        simp only [List.getD_cons_succ]
        exact ih k (by simpa using hm)

theorem np_argmax_first (l : List ℚ) :
    ∀ m, m < np_argmax l → l.getD m 0 < l.getD (np_argmax l) 0 := by
  induction l with
  | nil => intro m hm; simp [np_argmax] at hm
  | cons x xs ih =>
    intro m hm
    rw [np_argmax] at hm ⊢
    by_cases hall : xs.all (fun y => decide (y ≤ x)) = true
    · rw [if_pos hall] at hm; omega
    · rw [if_neg hall] at hm ⊢
      have hex : ∃ y ∈ xs, x < y := by
        by_contra hno
        push_neg at hno
        exact hall (List.all_eq_true.mpr (fun y hy => by
          simp only [decide_eq_true_eq]
          exact hno y hy))
      have hx : x < xs.getD (np_argmax xs) 0 := by
        obtain ⟨y, hy, hxy⟩ := hex
        obtain ⟨j, hj, rfl⟩ := List.mem_iff_getElem.mp hy
        have := np_argmax_is_max xs j hj
        rw [List.getD_eq_getElem _ _ hj] at this
        exact lt_of_lt_of_le hxy this
      cases m with
      | zero => simpa using hx
      | succ k =>
        simp only [List.getD_cons_succ]
        exact ih k (by omega)

theorem np_argmax_lt_length (l : List ℚ) (h : l ≠ []) : np_argmax l < l.length := by
  induction l with
  | nil => simp at h
  | cons x xs ih =>
    rw [np_argmax]
    by_cases hall : xs.all (fun y => decide (y ≤ x)) = true
    · simp [hall]
    · rw [if_neg hall]
      have hne : xs ≠ [] := by
        intro he; rw [he] at hall; simp at hall
      have := ih hne
      simp only [List.length_cons]
      omega

theorem get_daily_maxima_go_length (start : Int) :
    ∀ (fuel : Nat) (qt : List ℚ) (startIndex : Nat), qt.length ≤ fuel →
      (get_daily_maxima_go start fuel startIndex qt).length =
        (qt.length + 86399) / 86400 := by
  intro fuel
  induction fuel with
  | zero =>
    intro qt si h
    have h0 : qt.length = 0 := by omega
    rw [get_daily_maxima_go, h0]
    rfl
  | succ f ih =>
    intro qt si h
    rw [get_daily_maxima_go]
    by_cases hq : qt.isEmpty = true
    · rw [if_pos hq]
      have h0 : qt.length = 0 := by
        cases qt with
        | nil => rfl
        | cons a l => simp at hq
      rw [h0]
      rfl
    · rw [if_neg hq]
      have hlen : 0 < qt.length := by
        cases qt with
        | nil => simp at hq
        | cons a l => simp
      simp only [List.length_cons]
      rw [ih (qt.drop 86400) _ (by simp only [List.length_drop]; omega)]
      simp only [List.length_drop]
      omega

theorem get_daily_maxima_go_get? (start : Int) :
    ∀ (k : Nat) (fuel startIndex : Nat) (qt : List ℚ),
      qt.length ≤ fuel → k * 86400 < qt.length →
      (get_daily_maxima_go start fuel startIndex qt).get? k =
        some (start +
            ((startIndex + k * 86400 + np_argmax (dayWindow qt k) : Nat) : Int) * usPerSecond,
          (dayWindow qt k).getD (np_argmax (dayWindow qt k)) 0) := by
  intro k
  induction k with
  | zero =>
    intro fuel si qt hf hk
    cases fuel with
    | zero => omega
    | succ f =>
      rw [get_daily_maxima_go]
      have hne : ¬ qt.isEmpty = true := by
        cases qt with
        | nil => simp at hk
        | cons a l => simp
      rw [if_neg hne]
      simp [dayWindow]
  | succ k ih =>
    intro fuel si qt hf hk
    cases fuel with
    | zero => omega
    | succ f =>
      rw [get_daily_maxima_go]
      have hne : ¬ qt.isEmpty = true := by
        cases qt with
        | nil => simp at hk
        | cons a l => simp
      rw [if_neg hne]
      have h86 : min 86400 qt.length = 86400 := by omega
      rw [List.get?_cons_succ, h86,
        ih f (si + 86400) (qt.drop 86400)
          (by simp only [List.length_drop]; omega)
          (by simp only [List.length_drop]; omega)]
      have hdw : dayWindow (qt.drop 86400) k = dayWindow qt (k + 1) := by
        rw [dayWindow, dayWindow, List.drop_drop]
        congr 2
        ring
      have hsi : si + 86400 + k * 86400 = si + (k + 1) * 86400 := by ring
      rw [hdw, hsi]

/-- Claim C5: the Daily Maxima Extractor partitions indices into consecutive
86400-second windows starting at offset 0 (last window possibly shorter) and
emits exactly one maximum per window with
`peak_time = window_start + peak_index` seconds; the peak index is the first
index of the window maximum (ties go to the earliest index), and an all-zero
window yields value `0` at the window's first index. -/
theorem daily_maxima_extractor_correct (start : Int) (qt : List ℚ) (k : Nat)
    (hk : k * 86400 < qt.length) :
    (get_daily_maxima start qt).length = (qt.length + 86399) / 86400 ∧
    (get_daily_maxima start qt).get? k =
      some (start + ((k * 86400 + np_argmax (dayWindow qt k) : Nat) : Int) * usPerSecond,
        (dayWindow qt k).getD (np_argmax (dayWindow qt k)) 0) ∧
    (∀ m, m < (dayWindow qt k).length →
      (dayWindow qt k).getD m 0 ≤
        (dayWindow qt k).getD (np_argmax (dayWindow qt k)) 0) ∧
    (∀ m, m < np_argmax (dayWindow qt k) →
      (dayWindow qt k).getD m 0 <
        (dayWindow qt k).getD (np_argmax (dayWindow qt k)) 0) ∧
    ((∀ m, m < (dayWindow qt k).length → (dayWindow qt k).getD m 0 = 0) →
      np_argmax (dayWindow qt k) = 0 ∧
        (dayWindow qt k).getD (np_argmax (dayWindow qt k)) 0 = 0) := by
  have hwlen : 0 < (dayWindow qt k).length := by
    simp only [dayWindow, List.length_take, List.length_drop]
    omega
  refine ⟨get_daily_maxima_go_length start qt.length qt 0 le_rfl, ?_,
    np_argmax_is_max _, np_argmax_first _, ?_⟩
  · have h := get_daily_maxima_go_get? start k qt.length 0 qt le_rfl hk
    rw [get_daily_maxima, h]
    norm_num
  · intro hz
    have hne : dayWindow qt k ≠ [] := List.ne_nil_of_length_pos hwlen
    have hlt := np_argmax_lt_length _ hne
    by_cases hj : np_argmax (dayWindow qt k) = 0
    · exact ⟨hj, by rw [hj]; exact hz 0 hwlen⟩
    · exfalso
      have h0 := np_argmax_first (dayWindow qt k) 0 (by omega)
      rw [hz 0 hwlen, hz _ hlt] at h0
      exact lt_irrefl _ h0

/-- Witness for C5 at `start = 0`, series `[1, 2, 2]` (a single short window
with a tie between indices 1 and 2), window `k = 0`. -/
theorem daily_maxima_extractor_correct_witness :
    (get_daily_maxima 0 [1, 2, 2]).length = (([1, 2, 2] : List ℚ).length + 86399) / 86400 ∧
    (get_daily_maxima 0 [1, 2, 2]).get? 0 =
      some ((0 : Int) +
          ((0 * 86400 + np_argmax (dayWindow [1, 2, 2] 0) : Nat) : Int) * usPerSecond,
        (dayWindow [1, 2, 2] 0).getD (np_argmax (dayWindow [1, 2, 2] 0)) 0) ∧
    (∀ m, m < (dayWindow [1, 2, 2] 0).length →
      (dayWindow [1, 2, 2] 0).getD m 0 ≤
        (dayWindow [1, 2, 2] 0).getD (np_argmax (dayWindow [1, 2, 2] 0)) 0) ∧
    (∀ m, m < np_argmax (dayWindow [1, 2, 2] 0) →
      (dayWindow [1, 2, 2] 0).getD m 0 <
        (dayWindow [1, 2, 2] 0).getD (np_argmax (dayWindow [1, 2, 2] 0)) 0) ∧
    ((∀ m, m < (dayWindow [1, 2, 2] 0).length → (dayWindow [1, 2, 2] 0).getD m 0 = 0) →
      np_argmax (dayWindow [1, 2, 2] 0) = 0 ∧
        (dayWindow [1, 2, 2] 0).getD (np_argmax (dayWindow [1, 2, 2] 0)) 0 = 0) :=
  daily_maxima_extractor_correct 0 [1, 2, 2] 0 (by decide)

/-! FormatProfile Detector (`look_for_datetime` and `detect_cdr_type` in
`countcps.py`).

Timestamp parsing itself (`datetime.strptime` with a fixed format string,
or `datetime.fromisoformat`) is abstracted by a parse oracle
`parse : FmtName -> String -> Option (Option Int)`: `some tz` means the
column parsed, with `tz` the (optional) timezone offset embedded in the
parsed value, and `none` means a `ValueError`.  The code dispatches on the
truthiness of the format string of the current `DATETIME_FORMATS` entry;
since the three entries have pairwise distinct format strings, keying the
oracle by the entry name is equivalent. -/

/-- Keys of the `DATETIME_FORMATS` dict, in iteration order. -/
inductive FmtName
  | Monkey
  | Console
  | ISO
deriving DecidableEq

/-- The `DATETIME_FORMATS` dict: `strptime` format strings, with `None`
(here `none`) for the ISO entry, which is parsed by
`datetime.fromisoformat` instead. -/
def DATETIME_FORMATS : List (FmtName × Option String) :=
  [(FmtName.Monkey, some "%a, %d %b %Y %H:%M:%S %z"),
   (FmtName.Console, some "%H:%M:%S %Z %Y-%m-%d"),
   (FmtName.ISO, none)]

/-- Inner column loop of `look_for_datetime` for one format: `i` starts at
`1`; each successful parse appends `i` to `dt_cols` and overwrites `tzinfo`
with the parsed value's timezone. -/
def tryColumnsAux (parse : FmtName → String → Option (Option Int)) (fmt : FmtName) :
    Nat → Option Int → List String → List Nat × Option Int
  | _, tz, [] => ([], tz)
  | i, tz, c :: rest =>
    match parse fmt c with
    | some tzNew =>
      ((tryColumnsAux parse fmt (i + 1) tzNew rest).1.cons i,
        (tryColumnsAux parse fmt (i + 1) tzNew rest).2)
    | none => tryColumnsAux parse fmt (i + 1) tz rest

/-- Outer format loop of `look_for_datetime`: formats are tried in dict
iteration order, and the loop breaks at the first format for which at least
one column parsed.  When every format fails, the function falls out of the
loop with `dt_cols = []`, `fmt_string` left at the last entry's format
string (`None`, the ISO entry) and `tzinfo = None` — the same observable
value the empty-list base case returns here. -/
def look_for_datetime_go (parse : FmtName → String → Option (Option Int))
    (columns : List String) :
    List (FmtName × Option String) → List Nat × Option String × Option Int
  | [] => ([], none, none)
  | (fmt, fstr) :: rest =>
    if (tryColumnsAux parse fmt 1 none columns).1.isEmpty then
      look_for_datetime_go parse columns rest
    else ((tryColumnsAux parse fmt 1 none columns).1, fstr,
      (tryColumnsAux parse fmt 1 none columns).2)

/-- Embedding of `look_for_datetime(columns)`: returns `(dt_cols,
fmt_string, tzinfo)`. -/
def look_for_datetime (parse : FmtName → String → Option (Option Int))
    (columns : List String) : List Nat × Option String × Option Int :=
  look_for_datetime_go parse columns DATETIME_FORMATS

/-- Value of the `--type` argument of `countcps.py`. -/
inductive CdrTypeArg
  | auto
  | header
  | positional
deriving DecidableEq

/-- Embedding of the header/format-detection part of `detect_cdr_type`
(`countcps.py` lines 190-223): run `look_for_datetime` on the first row
(the `DictReader` fieldnames); `has_header` is true exactly when no column
of that row parsed; validate against an explicit `--type` hint; when a
header was detected, re-run detection on the sample row (the first data
row, `none` when the file has no further rows).  Start-column selection
(lines 226-277) operates on the result and is not modelled here. -/
def detect_cdr_type (parse : FmtName → String → Option (Option Int))
    (typeArg : CdrTypeArg) (fieldnames : List String)
    (nextRow : Option (List String)) :
    Except String (Bool × (List Nat × Option String × Option Int)) :=
  if typeArg = CdrTypeArg.positional ∧
      (look_for_datetime parse fieldnames).1.isEmpty = true then
    .error "Error: CDR file has header row, but start date/time was specified by position"
  else if typeArg = CdrTypeArg.header ∧
      (look_for_datetime parse fieldnames).1.isEmpty = false then
    .error "Error: CDR file has no header row, but start date/time was specified by column name"
  else if (look_for_datetime parse fieldnames).1.isEmpty then
    match nextRow with
    | none => .error "Error: CDR file contains no call records!"
    | some row =>
      if (look_for_datetime parse row).1.isEmpty then
        .error "Error: CDR file contains no recognizable call records!"
      else .ok (true, look_for_datetime parse row)
  else .ok (false, look_for_datetime parse fieldnames)

/-- Specification-side description of the candidate columns: the 1-based
indices of the columns that parse under format `fmt`. -/
def parsingCols (parse : FmtName → String → Option (Option Int)) (fmt : FmtName)
    (columns : List String) : List Nat :=
  (List.range columns.length).filterMap
    (fun j => if (parse fmt (columns.getD j "")).isSome then some (j + 1) else none)
theorem tryColumnsAux_fst (parse : FmtName → String → Option (Option Int)) (fmt : FmtName) :
    ∀ (cols : List String) (i : Nat) (tz : Option Int),
      (tryColumnsAux parse fmt i tz cols).1 =
        (List.range cols.length).filterMap
          (fun j => if (parse fmt (cols.getD j "")).isSome then some (i + j) else none) := by
  intro cols
  induction cols with
  | nil => intro i tz; simp [tryColumnsAux]
  | cons c rest ih =>
    intro i tz
    have hr : List.range (c :: rest).length = 0 :: (List.range rest.length).map (· + 1) := by
      simp [List.length_cons, List.range_succ_eq_map]
    have hfun : ∀ N : List Nat,
        N.filterMap ((fun j => if (parse fmt ((c :: rest).getD j "")).isSome = true
            then some (i + j) else none) ∘ (· + 1)) =
        N.filterMap (fun j => if (parse fmt (rest.getD j "")).isSome = true
            then some (i + 1 + j) else none) := by
      intro N
      congr 1
      funext j
      simp only [Function.comp_apply, List.getD_cons_succ]
      by_cases hpj : (parse fmt (rest.getD j "")).isSome = true
      · rw [if_pos hpj, if_pos hpj, show i + (j + 1) = i + 1 + j from by omega]
      · rw [if_neg hpj, if_neg hpj]
    rw [hr, List.filterMap_cons, List.filterMap_map, hfun]
    cases hp : parse fmt c with
    | some tzNew =>
      simp only [tryColumnsAux, hp]
      rw [ih (i + 1) tzNew]
      simp [hp]
    | none =>
      simp only [tryColumnsAux, hp]
      rw [ih (i + 1) tz]
      simp [hp]

theorem tryColumnsAux_one (parse : FmtName → String → Option (Option Int))
    (fmt : FmtName) (cols : List String) :
    (tryColumnsAux parse fmt 1 none cols).1 = parsingCols parse fmt cols := by
  rw [tryColumnsAux_fst, parsingCols]
  congr 1
  funext j
  by_cases hpj : (parse fmt (cols.getD j "")).isSome = true
  · rw [if_pos hpj, if_pos hpj, Nat.add_comm]
  · rw [if_neg hpj, if_neg hpj]

theorem isEmpty_false_of_ne_nil {α : Type} (l : List α) (h : l ≠ []) :
    l.isEmpty = false := by
  cases l with
  | nil => exact absurd rfl h
  | cons a t => rfl

/-- Claim C7: the detector tries the known timestamp formats in the fixed
priority order Monkey (vendor format A), Console (vendor format B), generic
ISO-8601 against every column of the row, selecting the first format for
which at least one column parses (the candidate columns are exactly the
1-based indices that parse under that format); if no column of the first
row parses under any format, `has_header` is set and detection is re-run on
the first data row, while a first row that parses fixes
`has_header = false`. -/
theorem format_detection_priority_and_header
    (parse : FmtName → String → Option (Option Int))
    (fieldnames : List String) (nextRow : Option (List String)) :
    (∀ cols : List String,
      (parsingCols parse FmtName.Monkey cols ≠ [] →
        (look_for_datetime parse cols).1 = parsingCols parse FmtName.Monkey cols ∧
        (look_for_datetime parse cols).2.1 = some "%a, %d %b %Y %H:%M:%S %z") ∧
      (parsingCols parse FmtName.Monkey cols = [] →
        parsingCols parse FmtName.Console cols ≠ [] →
        (look_for_datetime parse cols).1 = parsingCols parse FmtName.Console cols ∧
        (look_for_datetime parse cols).2.1 = some "%H:%M:%S %Z %Y-%m-%d") ∧
      (parsingCols parse FmtName.Monkey cols = [] →
        parsingCols parse FmtName.Console cols = [] →
        (look_for_datetime parse cols).1 = parsingCols parse FmtName.ISO cols ∧
        (look_for_datetime parse cols).2.1 = none)) ∧
    ((look_for_datetime parse fieldnames).1 ≠ [] →
      detect_cdr_type parse CdrTypeArg.auto fieldnames nextRow =
        .ok (false, look_for_datetime parse fieldnames)) ∧
    ((look_for_datetime parse fieldnames).1 = [] → ∀ row, nextRow = some row →
      (look_for_datetime parse row).1 ≠ [] →
      detect_cdr_type parse CdrTypeArg.auto fieldnames nextRow =
        .ok (true, look_for_datetime parse row)) := by
  refine ⟨fun cols => ?_, fun hne => ?_, fun hemp row hrow hne2 => ?_⟩
  · have hM := tryColumnsAux_one parse FmtName.Monkey cols
    have hC := tryColumnsAux_one parse FmtName.Console cols
    have hI := tryColumnsAux_one parse FmtName.ISO cols
    refine ⟨fun hm => ?_, fun hm hc => ?_, fun hm hc => ?_⟩
    · simp [look_for_datetime, DATETIME_FORMATS, look_for_datetime_go, hM,
        isEmpty_false_of_ne_nil _ hm]
    · simp [look_for_datetime, DATETIME_FORMATS, look_for_datetime_go, hM, hm,
        hC, isEmpty_false_of_ne_nil _ hc]
    · by_cases hiso : parsingCols parse FmtName.ISO cols = []
      · simp [look_for_datetime, DATETIME_FORMATS, look_for_datetime_go, hM, hm,
          hC, hc, hI, hiso]
      · simp [look_for_datetime, DATETIME_FORMATS, look_for_datetime_go, hM, hm,
          hC, hc, hI, isEmpty_false_of_ne_nil _ hiso]
  · simp [detect_cdr_type, isEmpty_false_of_ne_nil _ hne]
  · subst hrow
    simp [detect_cdr_type, hemp, isEmpty_false_of_ne_nil _ hne2]

/-- Witness for C7: a two-column header row with no timestamps, followed by
a data row whose second column parses under the Console format, is detected
as a headered file with detection re-run on the data row. -/
theorem format_detection_priority_and_header_witness :
    detect_cdr_type
        (fun f s => if f = FmtName.Console ∧ s = "14:52:06 EDT 2020-09-10"
          then some (some (-14400)) else none)
        CdrTypeArg.auto ["AccountSid", "To"]
        (some ["AC123", "14:52:06 EDT 2020-09-10"]) =
      .ok (true, look_for_datetime
        (fun f s => if f = FmtName.Console ∧ s = "14:52:06 EDT 2020-09-10"
          then some (some (-14400)) else none)
        ["AC123", "14:52:06 EDT 2020-09-10"]) :=
  (format_detection_priority_and_header
      (fun f s => if f = FmtName.Console ∧ s = "14:52:06 EDT 2020-09-10"
        then some (some (-14400)) else none)
      ["AccountSid", "To"]
      (some ["AC123", "14:52:06 EDT 2020-09-10"])).2.2
    (by decide) ["AC123", "14:52:06 EDT 2020-09-10"] rfl (by decide)

/-! Record Normalizer and Arrival Aggregator (the CDR loop of `main` in
`countcps.py`, lines 335-375).

Rows are modelled with their column values already parsed (`int` for Flags,
the raw string for Direction, the parsed start datetime in microseconds,
`Decimal` milliseconds for QueueTime as an exact rational): any parse
failure inside the loop aborts the whole run (`sys.exit` in the `except`
handler), so the per-row claims quantify over rows that parse.  The three
`CdrCfg` flags record which optional columns the detected `CDRinfo`
configured (`flags_col_id`, `direction_col_id`, `queuetime_col_id`). -/

/-- Which optional columns of the CDR file are configured. -/
structure CdrCfg where
  flagsCol : Bool
  directionCol : Bool
  queuetimeCol : Bool

/-- One parsed CDR row. -/
structure CdrRow where
  flags : Int
  direction : String
  startTime : Int
  queueWaitMs : ℚ

/-- Mutable state of the CDR loop: the `intervals` dict (arrival second to
count), the `queue_times` dict (wait seconds to count), `num_read` and
`num_counted`. -/
structure CountState where
  intervals : List (Int × Nat)
  queueTimes : List (ℚ × Nat)
  numRead : Nat
  numCounted : Nat

/-- Python dict tally idiom `d[k] += 1 if k in d else d[k] = 1`, on an
association list with unique keys. -/
def bump {α : Type} [DecidableEq α] (m : List (α × Nat)) (k : α) : List (α × Nat) :=
  if m.any (fun p => decide (p.1 = k)) then
    m.map (fun p => if p.1 = k then (p.1, p.2 + 1) else p)
  else m ++ [(k, 1)]

/-- Python `int()` truncation toward zero on an exact decimal value. -/
def pyInt (q : ℚ) : Int := if q < 0 then -(Int.floor (-q)) else Int.floor q

/-- Time-window filter and counting step of the CDR loop: skip when
`call_start < args.start` or `call_start >= args.end`, else count the call
against its interval. -/
def windowCount (argStart argEnd : Option Int) (st : CountState)
    (callStart : Int) : CountState :=
  if argStart.any (fun s => decide (callStart < s)) then st
  else if argEnd.any (fun e => decide (callStart ≥ e)) then st
  else { st with numCounted := st.numCounted + 1
                 intervals := bump st.intervals callStart }

/-- Body of the CDR loop after `num_read += 1`: outbound filters, queue-wait
tally and start-time adjustment, then the window filter and count. -/
def processRowBody (cfg : CdrCfg) (argStart argEnd : Option Int)
    (st : CountState) (row : CdrRow) : CountState :=
  if cfg.flagsCol ∧ Int.land row.flags 2 ≠ 2 then st
  else if cfg.directionCol ∧
      row.direction ∉ (["Outgoing API", "outbound-api"] : List String) then st
  else if cfg.queuetimeCol then
    windowCount argStart argEnd
      { st with queueTimes := bump st.queueTimes (row.queueWaitMs / 1000) }
      (if row.queueWaitMs / 1000 > 0 then
        row.startTime - usPerSecond * pyInt (row.queueWaitMs / 1000)
      else row.startTime)
  else windowCount argStart argEnd st row.startTime

/-- Embedding of one iteration of the CDR loop of `main` in `countcps.py`. -/
def processRow (cfg : CdrCfg) (argStart argEnd : Option Int)
    (st : CountState) (row : CdrRow) : CountState :=
  processRowBody cfg argStart argEnd { st with numRead := st.numRead + 1 } row

/-- Arrival time after the queue-wait adjustment: the parsed start time
minus the recorded wait truncated to whole seconds (the wait is recorded in
milliseconds, so the wait in seconds is `queueWaitMs / 1000`). -/
def adjusted_arrival (row : CdrRow) : Int :=
  row.startTime - usPerSecond * Int.floor (row.queueWaitMs / 1000)

theorem windowCount_queueTimes (argStart argEnd : Option Int) (st : CountState)
    (callStart : Int) :
    (windowCount argStart argEnd st callStart).queueTimes = st.queueTimes := by
  unfold windowCount
  split
  · rfl
  · split <;> rfl

theorem adjustment_eq_floor (t : Int) (w : ℚ) (hw : 0 ≤ w) :
    (if w / 1000 > 0 then t - usPerSecond * pyInt (w / 1000) else t) =
      t - usPerSecond * Int.floor (w / 1000) := by
  by_cases h : w / 1000 > 0
  · rw [if_pos h, pyInt, if_neg (not_lt.mpr (le_of_lt h))]
  · rw [if_neg h]
    have h0 : w / 1000 = 0 :=
      le_antisymm (not_lt.mp h) (div_nonneg hw (by norm_num))
    rw [h0]
    simp

/-- Claim C9: for every row with a configured queue-wait column that passes
the outbound filter, the wait histogram is bumped at the recorded wait (in
seconds) regardless of the outcome of the explicit time-window filter —
wait statistics are collected before window filtering. -/
theorem wait_histogram_before_window_filter (cfg : CdrCfg)
    (argStart argEnd : Option Int) (st : CountState) (row : CdrRow)
    (hq : cfg.queuetimeCol = true)
    (hf : ¬ (cfg.flagsCol ∧ Int.land row.flags 2 ≠ 2))
    (hd : ¬ (cfg.directionCol ∧
      row.direction ∉ (["Outgoing API", "outbound-api"] : List String))) :
    (processRow cfg argStart argEnd st row).queueTimes =
      bump st.queueTimes (row.queueWaitMs / 1000) := by
  unfold processRow processRowBody
  rw [if_neg hf, if_neg hd, if_pos hq, windowCount_queueTimes]

/-- Witness for C9: a row that passes the outbound filter but is excluded by
the explicit window `[1000000, 2000000)` (its arrival is at `0`) still has
its wait of `0.5` seconds tallied. -/
theorem wait_histogram_before_window_filter_witness :
    (processRow ⟨true, true, true⟩ (some 1000000) (some 2000000)
        ⟨[], [], 0, 0⟩ ⟨2, "Outgoing API", 0, 500⟩).queueTimes =
      bump ([] : List (ℚ × Nat)) ((500 : ℚ) / 1000) :=
  wait_histogram_before_window_filter ⟨true, true, true⟩ (some 1000000)
    (some 2000000) ⟨[], [], 0, 0⟩ ⟨2, "Outgoing API", 0, 500⟩
    rfl (by decide) (by decide)

/-- Claim C8: for every kept row, the arrival time is the parsed start time
minus the recorded queue wait truncated to whole seconds when the queue-wait
column is configured (the start time unmodified otherwise), and the explicit
time-window filter keeps exactly the rows whose post-adjustment arrival lies
in `[window_start, window_end)` — the filter tests the adjusted arrival
time, not the raw start time. -/
theorem arrival_adjustment_and_window_filter (cfg : CdrCfg) (s e : Int)
    (st : CountState) (row : CdrRow)
    (hf : ¬ (cfg.flagsCol ∧ Int.land row.flags 2 ≠ 2))
    (hd : ¬ (cfg.directionCol ∧
      row.direction ∉ (["Outgoing API", "outbound-api"] : List String))) :
    (cfg.queuetimeCol = true → 0 ≤ row.queueWaitMs →
      (s ≤ adjusted_arrival row ∧ adjusted_arrival row < e →
        processRow cfg (some s) (some e) st row =
          { intervals := bump st.intervals (adjusted_arrival row)
            queueTimes := bump st.queueTimes (row.queueWaitMs / 1000)
            numRead := st.numRead + 1
            numCounted := st.numCounted + 1 }) ∧
      (¬ (s ≤ adjusted_arrival row ∧ adjusted_arrival row < e) →
        processRow cfg (some s) (some e) st row =
          { intervals := st.intervals
            queueTimes := bump st.queueTimes (row.queueWaitMs / 1000)
            numRead := st.numRead + 1
            numCounted := st.numCounted })) ∧
    (cfg.queuetimeCol = false →
      (s ≤ row.startTime ∧ row.startTime < e →
        processRow cfg (some s) (some e) st row =
          { intervals := bump st.intervals row.startTime
            queueTimes := st.queueTimes
            numRead := st.numRead + 1
            numCounted := st.numCounted + 1 }) ∧
      (¬ (s ≤ row.startTime ∧ row.startTime < e) →
        processRow cfg (some s) (some e) st row =
          { intervals := st.intervals
            queueTimes := st.queueTimes
            numRead := st.numRead + 1
            numCounted := st.numCounted })) := by
  constructor
  · intro hq hw
    have hadj := adjustment_eq_floor row.startTime row.queueWaitMs hw
    have hfold : row.startTime - usPerSecond * Int.floor (row.queueWaitMs / 1000) =
        adjusted_arrival row := rfl
    constructor
    · intro hin
      unfold processRow processRowBody
      rw [if_neg hf, if_neg hd, if_pos hq, hadj, hfold]
      unfold windowCount
      simp only [Option.any_some, decide_eq_true_eq]
      rw [if_neg (not_lt.mpr hin.1), if_neg (not_le.mpr hin.2)]
    · intro hout
      unfold processRow processRowBody
      rw [if_neg hf, if_neg hd, if_pos hq, hadj, hfold]
      unfold windowCount
      simp only [Option.any_some, decide_eq_true_eq]
      by_cases h1 : adjusted_arrival row < s
      · rw [if_pos h1]
      · have h2 : adjusted_arrival row ≥ e := by omega
        rw [if_neg h1, if_pos h2]
  · intro hq
    constructor
    · intro hin
      unfold processRow processRowBody
      rw [if_neg hf, if_neg hd, if_neg (by simp [hq])]
      unfold windowCount
      simp only [Option.any_some, decide_eq_true_eq]
      rw [if_neg (not_lt.mpr hin.1), if_neg (not_le.mpr hin.2)]
    · intro hout
      unfold processRow processRowBody
      rw [if_neg hf, if_neg hd, if_neg (by simp [hq])]
      unfold windowCount
      simp only [Option.any_some, decide_eq_true_eq]
      by_cases h1 : row.startTime < s
      · rw [if_pos h1]
      · have h2 : row.startTime ≥ e := by omega
        rw [if_neg h1, if_pos h2]

/-- Witness for C8: a row with start time `2000000` microseconds and a wait
of `1500` ms is adjusted back by one whole second to arrival `1000000`,
which is excluded by the window `[0, 1000000)` even though the raw start
time is not what the filter tests. -/
theorem arrival_adjustment_and_window_filter_witness :
    processRow ⟨false, false, true⟩ (some 0) (some 1000000)
        ⟨[], [], 0, 0⟩ ⟨0, "x", 2000000, 1500⟩ =
      { intervals := []
        queueTimes := bump ([] : List (ℚ × Nat)) ((1500 : ℚ) / 1000)
        numRead := 1
        numCounted := 0 } :=
  ((arrival_adjustment_and_window_filter ⟨false, false, true⟩ 0 1000000
      ⟨[], [], 0, 0⟩ ⟨0, "x", 2000000, 1500⟩ (by decide) (by decide)).1
    rfl (by norm_num)).2 (by norm_num [adjusted_arrival, usPerSecond])
